import Mathlib

/-
Shallow embedding of the statement-parsing engine of `parse_statements.py`
(repository Ed1123/bank-statements).  Strings are modelled as Lean `String`
with the character-level operations re-implemented over `List Char` so that
every definition is executable by kernel reduction.  Python `float` amounts
are modelled as exact decimal rationals (the statement amounts are plain
decimal numerals; scientific notation, underscores and inf/nan are not
modelled).  Python exceptions are modelled with `Except PErr`.
-/

/-- Does `s` begin with the literal pattern `pat`?  Models Python
`str.startswith`. -/
def beginsWith : List Char → List Char → Bool
  | [], _ => true
  | _ :: _, [] => false
  | p :: ps, c :: cs => p = c && beginsWith ps cs

/-- Models Python `str.lstrip()` (strip leading whitespace). -/
def lstripChars (cs : List Char) : List Char := cs.dropWhile Char.isWhitespace

/-- Models Python `str.strip()` (strip whitespace on both sides). -/
def pyStrip (cs : List Char) : List Char :=
  ((cs.dropWhile Char.isWhitespace).reverse.dropWhile Char.isWhitespace).reverse

/-- Split a character list at every occurrence of `sep`; the result always has
at least one (possibly empty) field.  Models Python `str.split(sep)` for a
one-character separator. -/
def splitCh (sep : Char) : List Char → List (List Char)
  | [] => [[]]
  | c :: cs =>
    if c = sep then [] :: splitCh sep cs
    else
      match splitCh sep cs with
      | [] => [[c]]
      | f :: r => (c :: f) :: r

/-- `flushRun k` is what a pending run of `k` spaces contributes to the output
of `re.sub(r' {4,}', '|', line)`: a run of 4 or more spaces becomes a single
`'|'`, a shorter run is kept as-is. -/
def flushRun (k : Nat) : List Char :=
  if 4 ≤ k then ['|'] else List.replicate k ' '

/-- Worker for `sub4`: `k` counts the spaces read but not yet emitted. -/
def sub4Aux : List Char → Nat → List Char
  | [], k => flushRun k
  | c :: cs, k =>
    if c = ' ' then sub4Aux cs (k + 1)
    else flushRun k ++ c :: sub4Aux cs 0

/-- Models `re.sub(r' {4,}', '|', line)`: every maximal run of 4 or more
spaces is replaced by a single `'|'`. -/
def sub4 (cs : List Char) : List Char := sub4Aux cs 0

/-- The tokenizer of `get_page_lines`:
`re.sub(r' {4,}', '|', line).split('|')`. -/
def tokenizeLine (line : String) : List String :=
  (splitCh '|' (sub4 line.data)).map (fun cs => String.mk cs)

/-- Modelled from the spec (§4.1), as the comparator for the refinement claim
about the tokenizer: split the line at each maximal run of 4 or more
consecutive space characters; `k` counts pending spaces not yet classified as
separator or content. -/
def splitRuns4Aux : List Char → Nat → List (List Char)
  | [], k => if 4 ≤ k then [[], []] else [List.replicate k ' ']
  | c :: cs, k =>
    if c = ' ' then splitRuns4Aux cs (k + 1)
    else
      match splitRuns4Aux cs 0 with
      | [] => []
      | f :: r =>
        if 4 ≤ k then [] :: (c :: f) :: r
        else (List.replicate k ' ' ++ c :: f) :: r

/-- Modelled from the spec (§4.1): the specified tokenizer. -/
def splitRuns4 (cs : List Char) : List (List Char) := splitRuns4Aux cs 0

/-- Models Python `str.splitlines()` for pages whose line terminator is
`'\n'` (the rarer terminators recognised by Python are not modelled). -/
def pySplitlines (s : String) : List String :=
  if s.data = [] then []
  else
    let ps := splitCh '\n' s.data
    (match ps.getLast? with
     | some [] => ps.dropLast
     | _ => ps).map (fun cs => String.mk cs)

/-- `get_page_lines`: split a page into lines and tokenize each line. -/
def get_page_lines (page : String) : List (List String) :=
  (pySplitlines page).map tokenizeLine

/-- Value of a digit string, most significant first. -/
def digitsToNat (cs : List Char) : Nat :=
  cs.foldl (fun n c => 10 * n + (c.toNat - 48)) 0

/-- A non-empty all-digit string, as a number; `none` otherwise. -/
def digitsVal (cs : List Char) : Option Nat :=
  if cs ≠ [] ∧ cs.all Char.isDigit then some (digitsToNat cs) else none

/-- Unsigned decimal numeral `digits [. digits]` (at least one digit in
total), as an exact rational; the value is built with a single `mkRat` so
that it is kernel-computable. -/
def parseUnsigned (cs : List Char) : Option ℚ :=
  match cs.dropWhile Char.isDigit with
  | [] =>
    if cs.takeWhile Char.isDigit = [] then none
    else some (digitsToNat (cs.takeWhile Char.isDigit) : ℚ)
  | '.' :: fr =>
    if fr.all Char.isDigit ∧ ¬(cs.takeWhile Char.isDigit = [] ∧ fr = []) then
      some (mkRat (10 ^ fr.length * digitsToNat (cs.takeWhile Char.isDigit) + digitsToNat fr)
        (10 ^ fr.length))
    else none
  | _ => none

/-- The sign handling of Python `float(s)`, after whitespace stripping. -/
def pyFloatCore : List Char → Option ℚ
  | [] => none
  | c :: r =>
    if c = '-' then (parseUnsigned r).map (fun q => -q)
    else if c = '+' then parseUnsigned r
    else parseUnsigned (c :: r)

/-- Models Python `float(s)` on plain decimal numerals: optional surrounding
whitespace, optional sign, then an unsigned decimal numeral. -/
def pyFloat (s : String) : Option ℚ :=
  pyFloatCore (pyStrip s.data)

/-- Models Python `int(s)` on plain integer numerals: optional surrounding
whitespace, optional sign, then digits. -/
def pyIntL (cs : List Char) : Option Int :=
  match pyStrip cs with
  | [] => none
  | c :: r =>
    if c = '-' then (digitsVal r).map (fun n => -(n : Int))
    else if c = '+' then (digitsVal r).map (fun n => (n : Int))
    else (digitsVal (c :: r)).map (fun n => (n : Int))

/-- Models `s.replace(",", "")`: remove every comma. -/
def stripCommas (s : String) : String := String.mk (s.data.filter (· ≠ ','))

/-- The two currency columns of a transaction row. -/
inductive Currency
  | PEN
  | USD
  deriving Repr, DecidableEq

/-- The creation timestamp of the document; only its year and month are read
by the parsing engine. -/
structure CreationDate where
  year : Int
  month : Int
  deriving Repr, DecidableEq

/-- A `datetime.date`: the constructor validates it, see `mkDate`. -/
structure PyDate where
  year : Int
  month : Int
  day : Int
  deriving Repr, DecidableEq

/-- The Python exceptions the engine can raise. -/
inductive PErr
  /-- An out-of-range list index (`parsed_lines[i]`, `line[0]`,
  `holders[-1]`). -/
  | indexError
  /-- `ValueError("Invalid holder line", line)`. -/
  | invalidHolder (line : List String)
  /-- `ValueError("Invalid amount", line)`. -/
  | invalidAmount (line : List String)
  /-- `ValueError("Invalid operation line", line)`. -/
  | invalidOpLine (line : List String)
  /-- `ValueError` raised by `float(s)`. -/
  | floatError (s : String)
  /-- `ValueError` raised while converting the day-month token (both `int()`
  failures and unpacking failures are modelled with this constructor). -/
  | intError (s : String)
  /-- `ValueError` raised by the `datetime.date` constructor. -/
  | invalidDate (y m d : Int)
  deriving Repr, DecidableEq

deriving instance DecidableEq for Except

/-- One transaction. -/
structure Operation where
  date : PyDate
  description : String
  country : Option String
  amount : ℚ
  currency : Currency
  deriving Repr, DecidableEq

/-- One cardholder section. -/
structure Holder where
  name : String
  ending_card : String
  operations : List Operation
  deriving Repr, DecidableEq

/-- The whole parsed document. -/
structure Statement where
  holders : List Holder
  creation_date : CreationDate
  deriving Repr, DecidableEq

/-- The raw input of `RawStatement.parse_lines`. -/
structure RawStatement where
  pages : List String
  creation_date : CreationDate
  deriving Repr, DecidableEq

/-- `parse_amount`: `"---"` means “column not populated”; anything else has
its commas removed and is converted by `float` (a conversion failure is a
raised `ValueError`). -/
def parse_amount (s : String) : Except PErr (Option ℚ) :=
  if s = "---" then .ok none
  else
    match pyFloat (stripCommas s) with
    | some q => .ok (some q)
    | none => .error (.floatError s)

/-- The amount-selection logic of `parse_operation_line`: parse both columns
(`a` the local, `b` the foreign), take the local value when present, else the
foreign one, and raise `ValueError("Invalid amount", line)` when both are
absent. -/
def pickAmount (a b : String) (line : List String) : Except PErr ℚ :=
  match parse_amount a with
  | .error e => .error e
  | .ok pen =>
    match parse_amount b with
    | .error e => .error e
    | .ok usd =>
      match pen with
      | some v => .ok v
      | none =>
        match usd with
        | some v => .ok v
        | none => .error (.invalidAmount line)

/-- `True` in a leap year; `%` on `Int` agrees with Python for the positive
divisors used here. -/
def isLeap (y : Int) : Bool :=
  decide (y % 4 = 0 ∧ (¬y % 100 = 0 ∨ y % 400 = 0))

/-- Days in a month, as validated by `datetime.date`. -/
def daysInMonth (y m : Int) : Int :=
  if m = 2 then (if isLeap y then 29 else 28)
  else if m = 4 ∨ m = 6 ∨ m = 9 ∨ m = 11 then 30
  else 31

/-- The `datetime.date(year, month, day)` constructor: validates ranges and
raises `ValueError` on an invalid combination. -/
def mkDate (y m d : Int) : Except PErr PyDate :=
  if 1 ≤ y ∧ y ≤ 9999 ∧ 1 ≤ m ∧ m ≤ 12 ∧ 1 ≤ d ∧ d ≤ daysInMonth y m then
    .ok ⟨y, m, d⟩
  else .error (.invalidDate y m d)

/-- `day, month = map(int, token.split("-"))`. -/
def parseDayMonth (s : String) : Except PErr (Int × Int) :=
  match splitCh '-' s.data with
  | [a, b] =>
    match pyIntL a, pyIntL b with
    | some d, some m => .ok (d, m)
    | _, _ => .error (.intError s)
  | _ => .error (.intError s)

/-- The date logic shared by both branches of `parse_operation_line`: default
year is the creation year, minus one when the creation month is January and
the row month is November or December. -/
def resolveDate (s : String) (cd : CreationDate) : Except PErr PyDate :=
  match parseDayMonth s with
  | .error e => .error e
  | .ok (d, m) =>
    mkDate (if cd.month = 1 ∧ (m = 12 ∨ m = 11) then cd.year - 1 else cd.year) m d

/-- `parse_operation_line`: decode a tokenized transaction row of 6 or 5
tokens (with or without the country column). -/
def parse_operation_line (line : List String) (cd : CreationDate) :
    Except PErr Operation :=
  if line.length = 6 then
    match pickAmount (line.getD 4 "") (line.getD 5 "") line with
    | .error e => .error e
    | .ok amount =>
      match resolveDate (line.getD 1 "") cd with
      | .error e => .error e
      | .ok dt =>
        .ok ⟨dt, line.getD 2 "", some (line.getD 3 ""), amount,
          if line.getD 4 "" ≠ "---" then Currency.PEN else Currency.USD⟩
  else if line.length = 5 then
    match pickAmount (line.getD 3 "") (line.getD 4 "") line with
    | .error e => .error e
    | .ok amount =>
      match resolveDate (line.getD 1 "") cd with
      | .error e => .error e
      | .ok dt =>
        .ok ⟨dt, line.getD 2 "", none, amount,
          if line.getD 3 "" ≠ "---" then Currency.PEN else Currency.USD⟩
  else .error (.invalidOpLine line)

/-- Word character of the regex `\w` (ASCII range; the statements are
ASCII). -/
def isWordChar (c : Char) : Bool := c.isAlphanum || c = '_'

/-- One `\w+` atom: the maximal non-empty word-character run at the head. -/
def takeWord (cs : List Char) : Option (List Char × List Char) :=
  let r := cs.takeWhile isWordChar
  if r = [] then none else some (r, cs.dropWhile isWordChar)

/-- Consume one expected literal character. -/
def expectChar (c : Char) : List Char → Option (List Char)
  | x :: xs => if x = c then some xs else none
  | [] => none

/-- Consume one `\d` atom. -/
def expectDigit : List Char → Option (Char × List Char)
  | x :: xs => if x.isDigit then some (x, xs) else none
  | [] => none

/-- Match `(\w+ \w+) - (\d{4})` at the head of `cs`, returning the two
groups.  Because `\w`, the literals and `\d` are pairwise disjoint with the
characters that follow them in the pattern, the regex engine's backtracking
never changes the outcome and the match is this deterministic one. -/
def matchAt (cs : List Char) : Option (List Char × List Char) :=
  match takeWord cs with
  | none => none
  | some (r1, s1) =>
    match expectChar ' ' s1 with
    | none => none
    | some s2 =>
      match takeWord s2 with
      | none => none
      | some (r2, s3) =>
        match expectChar ' ' s3 with
        | none => none
        | some s4 =>
          match expectChar '-' s4 with
          | none => none
          | some s5 =>
            match expectChar ' ' s5 with
            | none => none
            | some s6 =>
              match expectDigit s6 with
              | none => none
              | some (d1, s7) =>
                match expectDigit s7 with
                | none => none
                | some (d2, s8) =>
                  match expectDigit s8 with
                  | none => none
                  | some (d3, s9) =>
                    match expectDigit s9 with
                    | none => none
                    | some (d4, _) => some (r1 ++ ' ' :: r2, [d1, d2, d3, d4])

/-- `re.search(r"(\w+ \w+) - (\d{4})", s)`: the leftmost match. -/
def reSearch : List Char → Option (List Char × List Char)
  | [] => none
  | c :: cs =>
    match matchAt (c :: cs) with
    | some g => some g
    | none => reSearch cs

/-- `"|".join(line)`. -/
def joinBar : List String → List Char
  | [] => []
  | [s] => s.data
  | s :: rest => s.data ++ '|' :: joinBar rest

/-- The holder-header decoding of `parse_lines`: search the name/card pattern
in the `"|"`-join of the whole tokenized line. -/
def parseHolder (l : List String) : Except PErr Holder :=
  match reSearch (joinBar l) with
  | some (n, c) => .ok ⟨String.mk n, String.mk c, []⟩
  | none => .error (.invalidHolder l)

/-- The first loop of `parse_lines`: advance until the first line whose token
0, left-stripped, starts with the holder marker; running off the end of the
list (or hitting a tokenless line) is an `IndexError`. -/
def seekHolder : List (List String) → Except PErr (List (List String))
  | [] => .error .indexError
  | l :: ls =>
    match l with
    | [] => .error .indexError
    | t0 :: _ =>
      if beginsWith "DETALLE DE OPERACIONES".data (lstripChars t0.data) then
        .ok (l :: ls)
      else seekHolder ls

/-- Does the row test `len(line) > 4 and line[1][2:3] == "-"` hold? -/
def rowShape (l : List String) : Prop :=
  4 < l.length ∧ ((l.getD 1 "").data.drop 2).head? = some '-'

instance (l : List String) : Decidable (rowShape l) := by
  unfold rowShape; infer_instance

/-- The second loop of `parse_lines`: stop at the monthly-limit marker, open
a holder on each holder marker, decode rows into the last opened holder
(`holders[-1]` on an empty list is an `IndexError`, raised before the row is
decoded), ignore everything else. -/
def assemble (cd : CreationDate) : List (List String) → List Holder →
    Except PErr (List Holder)
  | [], hs => .ok hs
  | l :: ls, hs =>
    match l with
    | [] => .error .indexError
    | t0 :: _ =>
      if beginsWith "LIMITE MENSUAL".data t0.data then .ok hs
      else if beginsWith "DETALLE DE OPERACIONES".data t0.data then
        match parseHolder l with
        | .error e => .error e
        | .ok h => assemble cd ls (hs ++ [h])
      else if rowShape l then
        match hs.getLast? with
        | none => .error .indexError
        | some h =>
          match parse_operation_line l cd with
          | .error e => .error e
          | .ok op =>
            assemble cd ls
              (hs.dropLast ++ [⟨h.name, h.ending_card, h.operations ++ [op]⟩])
      else assemble cd ls hs

/-- `parse_lines` on an already tokenized line stream. -/
def parseLineStream (lines : List (List String)) (cd : CreationDate) :
    Except PErr Statement :=
  match seekHolder lines with
  | .error e => .error e
  | .ok rest =>
    match assemble cd rest [] with
    | .error e => .error e
    | .ok hs => .ok ⟨hs, cd⟩

/-- `RawStatement.parse_lines`: tokenize every page line, then run the two
loops. -/
def RawStatement.parse_lines (r : RawStatement) : Except PErr Statement :=
  parseLineStream ((r.pages.map get_page_lines).flatten) r.creation_date

/-! ### Inversion lemmas for the row decoder -/

theorem parse_amount_eq_ok_none {s : String} :
    parse_amount s = .ok none ↔ s = "---" := by
  unfold parse_amount
  split
  · simp_all
  · rename_i hs
    cases hq : pyFloat (stripCommas s) <;> simp [hq, hs]

theorem parse_amount_eq_ok_some {s : String} {v : ℚ} :
    parse_amount s = .ok (some v) ↔ s ≠ "---" ∧ pyFloat (stripCommas s) = some v := by
  unfold parse_amount
  split
  · simp_all
  · rename_i hs
    cases hq : pyFloat (stripCommas s) <;> simp [hq, hs]

theorem pickAmount_ok_cases {a b : String} {line : List String} {v : ℚ}
    (h : pickAmount a b line = .ok v) :
    (a ≠ "---" ∧ pyFloat (stripCommas a) = some v) ∨
      (a = "---" ∧ b ≠ "---" ∧ pyFloat (stripCommas b) = some v) := by
  unfold pickAmount at h
  cases h1 : parse_amount a with
  | error e => rw [h1] at h; exact absurd h (by simp)
  | ok pen =>
    rw [h1] at h
    cases h2 : parse_amount b with
    | error e => rw [h2] at h; exact absurd h (by simp)
    | ok usd =>
      rw [h2] at h
      cases pen with
      | some w =>
        cases h
        exact Or.inl (parse_amount_eq_ok_some.mp h1)
      | none =>
        cases usd with
        | some u =>
          cases h
          exact Or.inr ⟨parse_amount_eq_ok_none.mp h1, (parse_amount_eq_ok_some.mp h2).1,
            (parse_amount_eq_ok_some.mp h2).2⟩
        | none => exact absurd h (by simp)

theorem pickAmount_ok_second {a b : String} {line : List String} {v : ℚ}
    (h : pickAmount a b line = .ok v) :
    b = "---" ∨ pyFloat (stripCommas b) ≠ none := by
  unfold pickAmount at h
  cases h1 : parse_amount a with
  | error e => rw [h1] at h; exact absurd h (by simp)
  | ok pen =>
    rw [h1] at h
    cases h2 : parse_amount b with
    | error e => rw [h2] at h; exact absurd h (by simp)
    | ok usd =>
      cases usd with
      | none => exact Or.inl (parse_amount_eq_ok_none.mp h2)
      | some u => exact Or.inr (by simp [(parse_amount_eq_ok_some.mp h2).2])

theorem pickAmount_placeholders (line : List String) :
    pickAmount "---" "---" line = .error (.invalidAmount line) := rfl

theorem parseOp_ok_six {line : List String} {cd : CreationDate} {op : Operation}
    (h6 : line.length = 6) (h : parse_operation_line line cd = .ok op) :
    pickAmount (line.getD 4 "") (line.getD 5 "") line = .ok op.amount ∧
      resolveDate (line.getD 1 "") cd = .ok op.date ∧
      op.description = line.getD 2 "" ∧
      op.country = some (line.getD 3 "") ∧
      op.currency = if line.getD 4 "" ≠ "---" then Currency.PEN else Currency.USD := by
  unfold parse_operation_line at h
  rw [if_pos h6] at h
  cases hp : pickAmount (line.getD 4 "") (line.getD 5 "") line with
  | error e => rw [hp] at h; exact absurd h (by simp)
  | ok amt =>
    rw [hp] at h
    cases hd : resolveDate (line.getD 1 "") cd with
    | error e => rw [hd] at h; exact absurd h (by simp)
    | ok dt =>
      rw [hd] at h
      cases h
      exact ⟨rfl, rfl, rfl, rfl, rfl⟩

theorem parseOp_ok_five {line : List String} {cd : CreationDate} {op : Operation}
    (h5 : line.length = 5) (h : parse_operation_line line cd = .ok op) :
    pickAmount (line.getD 3 "") (line.getD 4 "") line = .ok op.amount ∧
      resolveDate (line.getD 1 "") cd = .ok op.date ∧
      op.description = line.getD 2 "" ∧
      op.country = none ∧
      op.currency = if line.getD 3 "" ≠ "---" then Currency.PEN else Currency.USD := by
  unfold parse_operation_line at h
  have h6 : ¬line.length = 6 := by omega
  rw [if_neg h6, if_pos h5] at h
  cases hp : pickAmount (line.getD 3 "") (line.getD 4 "") line with
  | error e => rw [hp] at h; exact absurd h (by simp)
  | ok amt =>
    rw [hp] at h
    cases hd : resolveDate (line.getD 1 "") cd with
    | error e => rw [hd] at h; exact absurd h (by simp)
    | ok dt =>
      rw [hd] at h
      cases h
      exact ⟨rfl, rfl, rfl, rfl, rfl⟩

theorem parseOp_ok_len {line : List String} {cd : CreationDate} {op : Operation}
    (h : parse_operation_line line cd = .ok op) :
    line.length = 6 ∨ line.length = 5 := by
  by_cases h6 : line.length = 6
  · exact Or.inl h6
  by_cases h5 : line.length = 5
  · exact Or.inr h5
  unfold parse_operation_line at h
  rw [if_neg h6, if_neg h5] at h
  exact absurd h (by simp)

theorem mkDate_ok {y m d : Int} {dt : PyDate} (h : mkDate y m d = .ok dt) :
    dt = ⟨y, m, d⟩ := by
  unfold mkDate at h
  split at h
  · cases h; rfl
  · exact absurd h (by simp)

theorem resolveDate_ok {s : String} {cd : CreationDate} {dt : PyDate}
    (h : resolveDate s cd = .ok dt) (d m : Int)
    (hdm : parseDayMonth s = .ok (d, m)) :
    dt.year = (if cd.month = 1 ∧ (m = 12 ∨ m = 11) then cd.year - 1 else cd.year) ∧
      dt.month = m ∧ dt.day = d := by
  unfold resolveDate at h
  rw [hdm] at h
  rw [mkDate_ok h]
  exact ⟨rfl, rfl, rfl⟩

theorem parseOp_six_placeholder {line : List String} {cd : CreationDate}
    (h6 : line.length = 6) (h4 : line.getD 4 "" = "---") (h5 : line.getD 5 "" = "---") :
    parse_operation_line line cd = .error (.invalidAmount line) := by
  unfold parse_operation_line
  rw [if_pos h6, h4, h5, pickAmount_placeholders]

theorem parseOp_five_placeholder {line : List String} {cd : CreationDate}
    (h5 : line.length = 5) (h3 : line.getD 3 "" = "---") (h4 : line.getD 4 "" = "---") :
    parse_operation_line line cd = .error (.invalidAmount line) := by
  unfold parse_operation_line
  have h6 : ¬line.length = 6 := by omega
  rw [if_neg h6, if_pos h5, h3, h4, pickAmount_placeholders]

/-- C1: a row of 5 or 6 tokens decodes to an error when both amount columns
are the placeholder, and when a populated column is not a valid decimal; but
when both columns carry a numeric value the decode succeeds, the local column
wins and the currency is `PEN`.  (The claim that two present values raise
`AmbiguousOrMissingAmount` is refuted by `c1_counterexample`.) -/
theorem c1_amount_column_rules (line : List String) (cd : CreationDate) :
    (line.length = 6 →
      ((line.getD 4 "" = "---" ∧ line.getD 5 "" = "---") →
        parse_operation_line line cd = .error (.invalidAmount line)) ∧
      (((line.getD 4 "" ≠ "---" ∧ pyFloat (stripCommas (line.getD 4 "")) = none) ∨
          (line.getD 5 "" ≠ "---" ∧ pyFloat (stripCommas (line.getD 5 "")) = none)) →
        ∀ op : Operation, parse_operation_line line cd ≠ .ok op) ∧
      (∀ op : Operation, parse_operation_line line cd = .ok op →
        (line.getD 4 "" ≠ "---" ∧ op.currency = Currency.PEN ∧
          pyFloat (stripCommas (line.getD 4 "")) = some op.amount) ∨
        (line.getD 4 "" = "---" ∧ line.getD 5 "" ≠ "---" ∧ op.currency = Currency.USD ∧
          pyFloat (stripCommas (line.getD 5 "")) = some op.amount))) ∧
    (line.length = 5 →
      ((line.getD 3 "" = "---" ∧ line.getD 4 "" = "---") →
        parse_operation_line line cd = .error (.invalidAmount line)) ∧
      (((line.getD 3 "" ≠ "---" ∧ pyFloat (stripCommas (line.getD 3 "")) = none) ∨
          (line.getD 4 "" ≠ "---" ∧ pyFloat (stripCommas (line.getD 4 "")) = none)) →
        ∀ op : Operation, parse_operation_line line cd ≠ .ok op) ∧
      (∀ op : Operation, parse_operation_line line cd = .ok op →
        (line.getD 3 "" ≠ "---" ∧ op.currency = Currency.PEN ∧
          pyFloat (stripCommas (line.getD 3 "")) = some op.amount) ∨
        (line.getD 3 "" = "---" ∧ line.getD 4 "" ≠ "---" ∧ op.currency = Currency.USD ∧
          pyFloat (stripCommas (line.getD 4 "")) = some op.amount))) := by
  constructor
  · intro h6
    refine ⟨fun h => parseOp_six_placeholder h6 h.1 h.2, ?_, ?_⟩
    · rintro (⟨hne, hnone⟩ | ⟨hne, hnone⟩) op hok
      · rcases pickAmount_ok_cases (parseOp_ok_six h6 hok).1 with ⟨-, hsome⟩ | ⟨heq, -, -⟩
        · rw [hsome] at hnone; exact Option.noConfusion hnone
        · exact hne heq
      · rcases pickAmount_ok_second (parseOp_ok_six h6 hok).1 with heq | hns
        · exact hne heq
        · exact hns hnone
    · intro op hok
      obtain ⟨hp, -, -, -, hcur⟩ := parseOp_ok_six h6 hok
      rcases pickAmount_ok_cases hp with ⟨hne, hsome⟩ | ⟨heq, hne5, hsome⟩
      · exact Or.inl ⟨hne, by rw [hcur, if_pos hne], hsome⟩
      · exact Or.inr ⟨heq, hne5, by rw [hcur, if_neg (not_not_intro heq)], hsome⟩
  · intro h5
    refine ⟨fun h => parseOp_five_placeholder h5 h.1 h.2, ?_, ?_⟩
    · rintro (⟨hne, hnone⟩ | ⟨hne, hnone⟩) op hok
      · rcases pickAmount_ok_cases (parseOp_ok_five h5 hok).1 with ⟨-, hsome⟩ | ⟨heq, -, -⟩
        · rw [hsome] at hnone; exact Option.noConfusion hnone
        · exact hne heq
      · rcases pickAmount_ok_second (parseOp_ok_five h5 hok).1 with heq | hns
        · exact hne heq
        · exact hns hnone
    · intro op hok
      obtain ⟨hp, -, -, -, hcur⟩ := parseOp_ok_five h5 hok
      rcases pickAmount_ok_cases hp with ⟨hne, hsome⟩ | ⟨heq, hne4, hsome⟩
      · exact Or.inl ⟨hne, by rw [hcur, if_pos hne], hsome⟩
      · exact Or.inr ⟨heq, hne4, by rw [hcur, if_neg (not_not_intro heq)], hsome⟩

/-- C1 counterexample: both amount columns carry a present numeric value
(`"1.00"` and `"2.50"`), yet `parse_operation_line` returns an Operation
(local column wins) instead of raising `AmbiguousOrMissingAmount`. -/
theorem c1_counterexample :
    parse_operation_line ["", "03-02", "DESC", "1.00", "2.50"] ⟨2024, 1⟩ =
      .ok ⟨⟨2024, 2, 3⟩, "DESC", none, 1, Currency.PEN⟩ := by decide

/-- C1 witness: the amended rule applied to a concrete both-placeholder
5-token row. -/
theorem c1_amount_column_rules_witness :
    (["", "03-02", "X", "---", "---"] : List String).length = 5 ∧
      parse_operation_line ["", "03-02", "X", "---", "---"] ⟨2024, 1⟩ =
        .error (.invalidAmount ["", "03-02", "X", "---", "---"]) :=
  ⟨by decide,
    ((c1_amount_column_rules ["", "03-02", "X", "---", "---"] ⟨2024, 1⟩).2
      (by decide)).1 ⟨by decide, by decide⟩⟩

/-- C2: the resolved year is the creation year, minus one exactly when the
creation month is January and the row month is November or December; and the
three particular scenarios from the spec. -/
theorem c2_year_resolution :
    (∀ (line : List String) (cd : CreationDate) (op : Operation) (d m : Int),
        parse_operation_line line cd = .ok op →
        parseDayMonth (line.getD 1 "") = .ok (d, m) →
        op.date.year = if cd.month = 1 ∧ (m = 12 ∨ m = 11) then cd.year - 1 else cd.year) ∧
      (parse_operation_line ["", "15-12", "D", "1.00", "---"] ⟨2024, 1⟩).map
          (fun op => op.date.year) = .ok 2023 ∧
      (parse_operation_line ["", "15-06", "D", "1.00", "---"] ⟨2024, 1⟩).map
          (fun op => op.date.year) = .ok 2024 ∧
      (parse_operation_line ["", "15-12", "D", "1.00", "---"] ⟨2024, 3⟩).map
          (fun op => op.date.year) = .ok 2024 := by
  refine ⟨?_, by decide, by decide, by decide⟩
  intro line cd op d m hok hdm
  rcases parseOp_ok_len hok with h6 | h5
  · exact (resolveDate_ok (parseOp_ok_six h6 hok).2.1 d m hdm).1
  · exact (resolveDate_ok (parseOp_ok_five h5 hok).2.1 d m hdm).1

/-- C2 witness: the year rule applied to a concrete December row with a
January creation timestamp. -/
theorem c2_year_resolution_witness :
    parse_operation_line ["", "15-12", "D", "1.00", "---"] ⟨2024, 1⟩ =
      .ok ⟨⟨2023, 12, 15⟩, "D", none, 1, Currency.PEN⟩ ∧
    (⟨⟨2023, 12, 15⟩, "D", none, 1, Currency.PEN⟩ : Operation).date.year =
      if (1 : Int) = 1 ∧ ((12 : Int) = 12 ∨ (12 : Int) = 11) then 2024 - 1 else 2024 :=
  ⟨by decide,
    c2_year_resolution.1 ["", "15-12", "D", "1.00", "---"] ⟨2024, 1⟩
      ⟨⟨2023, 12, 15⟩, "D", none, 1, Currency.PEN⟩ 15 12 (by decide) (by decide)⟩

/-- C3: the two end-to-end row scenarios of the spec, with the amounts as
exact rationals (`mkRat 85 2 = 42.50`). -/
theorem c3_end_to_end :
    parse_operation_line ["", "15-12", "SUPERMARKET ABC", "LIMA", "---", "42.50"] ⟨2024, 1⟩ =
      .ok ⟨⟨2023, 12, 15⟩, "SUPERMARKET ABC", some "LIMA", mkRat 85 2, Currency.USD⟩ ∧
    (mkRat 85 2 : ℚ) = 42.5 ∧
    parse_operation_line ["", "03-02", "PHARMACY XYZ", "150.00", "---"] ⟨2024, 1⟩ =
      .ok ⟨⟨2024, 2, 3⟩, "PHARMACY XYZ", none, 150, Currency.PEN⟩ := by
  refine ⟨by decide, ?_, by decide⟩
  rw [Rat.mkRat_eq_div]
  norm_num

/-! ### Sign of parsed amounts -/

theorem mem_pyStrip {cs : List Char} {x : Char} (h : x ∈ pyStrip cs) : x ∈ cs := by
  unfold pyStrip at h
  rw [List.mem_reverse] at h
  have h1 := List.Sublist.subset (List.dropWhile_sublist _) h
  rw [List.mem_reverse] at h1
  exact List.Sublist.subset (List.dropWhile_sublist _) h1

theorem parseUnsigned_nonneg {cs : List Char} {q : ℚ}
    (h : parseUnsigned cs = some q) : 0 ≤ q := by
  unfold parseUnsigned at h
  split at h
  · split at h
    · exact absurd h (by simp)
    · cases h
      exact Nat.cast_nonneg _
  · split at h
    · cases h
      rw [Rat.mkRat_eq_div]
      exact div_nonneg (by positivity) (by positivity)
    · exact absurd h (by simp)
  · exact absurd h (by simp)

theorem pyFloat_nonneg {s : String} (hns : ('-' : Char) ∉ s.data) {q : ℚ}
    (h : pyFloat s = some q) : 0 ≤ q := by
  unfold pyFloat at h
  cases hps : pyStrip s.data with
  | nil => rw [hps] at h; exact absurd h (by simp [pyFloatCore])
  | cons c r =>
    rw [hps] at h
    simp only [pyFloatCore] at h
    have hc : ¬c = '-' := by
      intro he
      apply hns
      apply mem_pyStrip
      rw [hps, he]
      exact List.mem_cons_self _ _
    rw [if_neg hc] at h
    by_cases hp : c = '+'
    · rw [if_pos hp] at h; exact parseUnsigned_nonneg h
    · rw [if_neg hp] at h; exact parseUnsigned_nonneg h

theorem length_six_cases {line : List String} (h : line.length = 6) :
    ∃ a b c d e f, line = [a, b, c, d, e, f] := by
  rcases line with _ | ⟨a, _ | ⟨b, _ | ⟨c, _ | ⟨d, _ | ⟨e, _ | ⟨f, _ | ⟨g, t⟩⟩⟩⟩⟩⟩⟩
  · simp at h
  · simp at h
  · simp at h
  · simp at h
  · simp at h
  · simp at h
  · exact ⟨a, b, c, d, e, f, rfl⟩
  · simp at h

theorem length_five_cases {line : List String} (h : line.length = 5) :
    ∃ a b c d e, line = [a, b, c, d, e] := by
  rcases line with _ | ⟨a, _ | ⟨b, _ | ⟨c, _ | ⟨d, _ | ⟨e, _ | ⟨f, t⟩⟩⟩⟩⟩⟩
  · simp at h
  · simp at h
  · simp at h
  · simp at h
  · simp at h
  · exact ⟨a, b, c, d, e, rfl⟩
  · simp at h

/-- C9 (amended): the decoder performs no sign check; whenever every token
from index 3 on is either the placeholder or free of minus signs — as on
every well-formed statement row — the resulting amount is non-negative.
(That a signed column yields a negative amount is shown by
`c9_counterexample`.) -/
theorem c9_amount_nonneg (line : List String) (cd : CreationDate) (op : Operation)
    (hminus : ∀ s ∈ line.drop 3, s = "---" ∨ ('-' : Char) ∉ s.data)
    (hok : parse_operation_line line cd = .ok op) : 0 ≤ op.amount := by
  have nn : ∀ s : String, s ∈ line.drop 3 → s ≠ "---" →
      pyFloat (stripCommas s) = some op.amount → 0 ≤ op.amount := by
    intro s hmem hne hsome
    refine pyFloat_nonneg ?_ hsome
    intro hx
    exact ((hminus s hmem).resolve_left hne) (List.mem_of_mem_filter hx)
  rcases parseOp_ok_len hok with h6 | h5
  · obtain ⟨a, b, c, d, e, f, rfl⟩ := length_six_cases h6
    obtain ⟨hp, -, -, -, -⟩ := parseOp_ok_six h6 hok
    rcases pickAmount_ok_cases hp with ⟨hne, hsome⟩ | ⟨-, hne, hsome⟩
    · exact nn e (by simp) hne hsome
    · exact nn f (by simp) hne hsome
  · obtain ⟨a, b, c, d, e, rfl⟩ := length_five_cases h5
    obtain ⟨hp, -, -, -, -⟩ := parseOp_ok_five h5 hok
    rcases pickAmount_ok_cases hp with ⟨hne, hsome⟩ | ⟨-, hne, hsome⟩
    · exact nn d (by simp) hne hsome
    · exact nn e (by simp) hne hsome

/-- C9 counterexample: the amount column `"-5.00"` decodes successfully to
the negative amount `-5`, refuting the claim that every returned Operation
has a non-negative amount. -/
theorem c9_counterexample :
    parse_operation_line ["", "03-02", "X", "-5.00", "---"] ⟨2024, 1⟩ =
      .ok ⟨⟨2024, 2, 3⟩, "X", none, -5, Currency.PEN⟩ ∧ ((-5 : ℚ) < 0) :=
  ⟨by decide, by norm_num⟩

/-- C9 witness: the amended non-negativity rule on a concrete unsigned row. -/
theorem c9_amount_nonneg_witness :
    parse_operation_line ["", "03-02", "X", "150.00", "---"] ⟨2024, 1⟩ =
      .ok ⟨⟨2024, 2, 3⟩, "X", none, 150, Currency.PEN⟩ ∧
    (0 : ℚ) ≤ (⟨⟨2024, 2, 3⟩, "X", none, 150, Currency.PEN⟩ : Operation).amount :=
  ⟨by decide,
    c9_amount_nonneg ["", "03-02", "X", "150.00", "---"] ⟨2024, 1⟩
      ⟨⟨2024, 2, 3⟩, "X", none, 150, Currency.PEN⟩ (by decide) (by decide)⟩

/-! ### The tokenizer always yields at least one field -/

theorem splitCh_ne_nil (sep : Char) (cs : List Char) : splitCh sep cs ≠ [] := by
  induction cs with
  | nil => simp [splitCh]
  | cons c cs ih =>
    unfold splitCh
    split
    · simp
    · cases h : splitCh sep cs with
      | nil => simp
      | cons f r => simp

/-- C10: the tokenizer returns a non-empty field list for every input line
(including the empty line), so inspecting token 0 of a tokenized line never
faults; likewise every line produced by `get_page_lines`. -/
theorem c10_tokenizer_nonempty :
    (∀ line : String, tokenizeLine line ≠ []) ∧
      ∀ page : String, ∀ l ∈ get_page_lines page, l ≠ [] := by
  have tok : ∀ line : String, tokenizeLine line ≠ [] := by
    intro line h
    unfold tokenizeLine at h
    rw [List.map_eq_nil_iff] at h
    exact splitCh_ne_nil '|' (sub4 line.data) h
  refine ⟨tok, ?_⟩
  intro page l hl
  unfold get_page_lines at hl
  rw [List.mem_map] at hl
  obtain ⟨s, -, rfl⟩ := hl
  exact tok s

/-- C10 witness: a concrete page line is tokenized to a non-empty field
list. -/
theorem c10_tokenizer_nonempty_witness :
    (["ab"] : List String) ∈ get_page_lines "ab" ∧ (["ab"] : List String) ≠ [] :=
  ⟨by decide, c10_tokenizer_nonempty.2 "ab" ["ab"] (by decide)⟩

/-! ### The implemented tokenizer vs the specified split -/

theorem splitCh_cons_sep (sep : Char) (cs : List Char) :
    splitCh sep (sep :: cs) = [] :: splitCh sep cs := by
  rw [splitCh, if_pos rfl]

theorem splitCh_cons_ne {sep c : Char} (h : c ≠ sep) (cs : List Char) :
    splitCh sep (c :: cs) =
      match splitCh sep cs with
      | [] => [[c]]
      | f :: r => (c :: f) :: r := by
  rw [splitCh, if_neg h]

theorem splitCh_append_left {xs ys f : List Char} {r : List (List Char)}
    (h : ∀ x ∈ xs, x ≠ '|') (hys : splitCh '|' ys = f :: r) :
    splitCh '|' (xs ++ ys) = (xs ++ f) :: r := by
  induction xs with
  | nil => simpa using hys
  | cons x xs ih =>
    have hx : x ≠ '|' := h x (List.mem_cons_self _ _)
    rw [List.cons_append, splitCh_cons_ne hx,
      ih (fun y hy => h y (List.mem_cons_of_mem _ hy))]
    rfl

theorem splitCh_eq_single {xs : List Char} (h : ∀ x ∈ xs, x ≠ '|') :
    splitCh '|' xs = [xs] := by
  have h0 : splitCh '|' ([] : List Char) = [] :: [] := rfl
  have := splitCh_append_left h h0
  simpa using this

theorem splitCh_sub4Aux {cs : List Char} (hbar : ('|' : Char) ∉ cs) (k : Nat) :
    splitCh '|' (sub4Aux cs k) = splitRuns4Aux cs k := by
  induction cs generalizing k with
  | nil =>
    unfold sub4Aux splitRuns4Aux flushRun
    split
    · rfl
    · exact splitCh_eq_single (by
        intro x hx
        rw [List.eq_of_mem_replicate hx]
        decide)
  | cons c cs ih =>
    have hc : c ≠ '|' := fun h => hbar (h ▸ List.mem_cons_self c cs)
    have hcs : ('|' : Char) ∉ cs := fun h => hbar (List.mem_cons_of_mem c h)
    have hrest := ih hcs 0
    unfold sub4Aux splitRuns4Aux
    by_cases hsp : c = ' '
    · rw [if_pos hsp, if_pos hsp]
      exact ih hcs (k + 1)
    · rw [if_neg hsp, if_neg hsp]
      cases hS : splitRuns4Aux cs 0 with
      | nil => exact absurd (hrest.trans hS) (splitCh_ne_nil _ _)
      | cons f r =>
        have hcons : splitCh '|' (c :: sub4Aux cs 0) = (c :: f) :: r := by
          simp only [splitCh_cons_ne hc, hrest, hS]
        simp only [hS]
        unfold flushRun
        by_cases hk : 4 ≤ k
        · rw [if_pos hk, if_pos hk, List.singleton_append, splitCh_cons_sep, hcons]
        · rw [if_neg hk, if_neg hk,
            splitCh_append_left (fun x hx => by
              rw [List.eq_of_mem_replicate hx]; decide) hcons]

/-- C4 (amended): on every line that contains no literal `'|'` character the
tokenizer returns exactly the ordered fields obtained by splitting at each
maximal run of 4 or more spaces (shorter runs being preserved as content, and
the function being total); a literal `'|'` in the input also acts as a
separator, because the implementation rewrites space-runs to `'|'` and then
splits on `'|'` (see `c4_counterexample`). -/
theorem c4_tokenizer_refines (line : String) (h : ('|' : Char) ∉ line.data) :
    tokenizeLine line = (splitRuns4 line.data).map (fun cs => String.mk cs) := by
  unfold tokenizeLine splitRuns4 sub4
  rw [splitCh_sub4Aux h 0]

/-- C4 counterexample: the input `"a|b"` contains no run of 4 spaces, so the
specified split keeps it whole, but the tokenizer splits it at the literal
`'|'`. -/
theorem c4_counterexample :
    tokenizeLine "a|b" = ["a", "b"] ∧
      (splitRuns4 ("a|b").data).map (fun cs => String.mk cs) = ["a|b"] := by decide

/-- C4 witness: the amended agreement on a concrete bar-free line with short
and long space runs. -/
theorem c4_tokenizer_refines_witness :
    (('|' : Char) ∉ ("AB  CD     EF").data) ∧
      tokenizeLine "AB  CD     EF" =
        (splitRuns4 ("AB  CD     EF").data).map (fun cs => String.mk cs) :=
  ⟨by decide, c4_tokenizer_refines "AB  CD     EF" (by decide)⟩

/-! ### The section assembler -/

theorem seekHolder_append_skip (rest : List (List String)) :
    ∀ pre : List (List String),
      (∀ l ∈ pre, ∃ t0 ts, l = t0 :: ts ∧
        beginsWith "DETALLE DE OPERACIONES".data (lstripChars t0.data) = false) →
      seekHolder (pre ++ rest) = seekHolder rest := by
  intro pre
  induction pre with
  | nil => intro _; rfl
  | cons l ls ih =>
    intro hpre
    obtain ⟨t0, ts, rfl, hns⟩ := hpre _ (List.mem_cons_self _ _)
    have hrec := ih (fun y hy => hpre y (List.mem_cons_of_mem _ hy))
    simp [seekHolder, hns, hrec]

theorem seekHolder_append_limit (lines : List (List String)) :
    seekHolder (lines ++ [["LIMITE MENSUAL"]]) =
      (seekHolder lines).map (fun mid => mid ++ [["LIMITE MENSUAL"]]) := by
  induction lines with
  | nil => rfl
  | cons l ls ih =>
    cases l with
    | nil => rfl
    | cons t0 ts =>
      by_cases hb : beginsWith "DETALLE DE OPERACIONES".data (lstripChars t0.data) = true
      · simp [seekHolder, hb, Except.map]
      · have hb' : beginsWith "DETALLE DE OPERACIONES".data (lstripChars t0.data) = false := by
          simpa using hb
        simp [seekHolder, hb', ih]

theorem assemble_congr (cd : CreationDate) (l : List String)
    (ls ls' : List (List String))
    (hrec : ∀ hs, assemble cd ls hs = assemble cd ls' hs) :
    ∀ hs, assemble cd (l :: ls) hs = assemble cd (l :: ls') hs := by
  intro hs
  cases l with
  | nil => rfl
  | cons t0 ts =>
    by_cases h1 : beginsWith "LIMITE MENSUAL".data t0.data = true
    · simp [assemble, h1]
    · have h1' : beginsWith "LIMITE MENSUAL".data t0.data = false := by simpa using h1
      by_cases h2 : beginsWith "DETALLE DE OPERACIONES".data t0.data = true
      · cases hph : parseHolder (t0 :: ts) with
        | error e => simp [assemble, h1', h2, hph]
        | ok h => simp [assemble, h1', h2, hph, hrec]
      · have h2' : beginsWith "DETALLE DE OPERACIONES".data t0.data = false := by
          simpa using h2
        by_cases h3 : rowShape (t0 :: ts)
        · cases hgl : hs.getLast? with
          | none => simp [assemble, h1', h2', h3, hgl]
          | some hld =>
            cases hop : parse_operation_line (t0 :: ts) cd with
            | error e => simp [assemble, h1', h2', h3, hgl, hop]
            | ok op => simp [assemble, h1', h2', h3, hgl, hop, hrec]
        · simp [assemble, h1', h2', h3, hrec]

theorem assemble_append_limit (cd : CreationDate) :
    ∀ (mid : List (List String)) (hs : List Holder),
      assemble cd (mid ++ [["LIMITE MENSUAL"]]) hs = assemble cd mid hs := by
  intro mid
  induction mid with
  | nil => intro hs; rfl
  | cons l ls ih => exact assemble_congr cd l _ _ ih

theorem assemble_stop_at_limit (cd : CreationDate) (t0 : String) (ts : List String)
    (hl : beginsWith "LIMITE MENSUAL".data t0.data = true) :
    ∀ (mid tail tail' : List (List String)) (hs : List Holder),
      assemble cd (mid ++ (t0 :: ts) :: tail) hs =
        assemble cd (mid ++ (t0 :: ts) :: tail') hs := by
  intro mid
  induction mid with
  | nil =>
    intro tail tail' hs
    simp [assemble, hl]
  | cons l ls ih =>
    intro tail tail' hs
    exact assemble_congr cd l _ _ (fun hs' => ih tail tail' hs') hs

theorem seekHolder_split (pre : List (List String)) :
    ∀ rest rest' : List (List String),
      (∃ l ∈ pre, ∃ t0 ts, l = t0 :: ts ∧
        beginsWith "DETALLE DE OPERACIONES".data (lstripChars t0.data) = true) →
      (∃ e, seekHolder (pre ++ rest) = .error e ∧ seekHolder (pre ++ rest') = .error e) ∨
        (∃ mid, seekHolder (pre ++ rest) = .ok (mid ++ rest) ∧
          seekHolder (pre ++ rest') = .ok (mid ++ rest')) := by
  induction pre with
  | nil =>
    intro rest rest' h
    exact absurd h (by simp)
  | cons l ls ih =>
    intro rest rest' hex
    cases l with
    | nil => exact Or.inl ⟨.indexError, rfl, rfl⟩
    | cons t0 ts =>
      by_cases hb : beginsWith "DETALLE DE OPERACIONES".data (lstripChars t0.data) = true
      · exact Or.inr ⟨(t0 :: ts) :: ls, by simp [seekHolder, hb], by simp [seekHolder, hb]⟩
      · have hb' : beginsWith "DETALLE DE OPERACIONES".data (lstripChars t0.data) = false := by
          simpa using hb
        have hex' : ∃ l ∈ ls, ∃ t0 ts, l = t0 :: ts ∧
            beginsWith "DETALLE DE OPERACIONES".data (lstripChars t0.data) = true := by
          rcases hex with ⟨l', hl', u0, us, heq, hb2⟩
          rcases List.mem_cons.mp hl' with rfl | hmem
          · cases heq
            rw [hb2] at hb'
            exact absurd hb' (by simp)
          · exact ⟨l', hmem, u0, us, heq, hb2⟩
        rcases ih rest rest' hex' with ⟨e, h1, h2⟩ | ⟨mid, h1, h2⟩
        · exact Or.inl ⟨e, by simp [seekHolder, hb', h1], by simp [seekHolder, hb', h2]⟩
        · exact Or.inr ⟨mid, by simp [seekHolder, hb', h1], by simp [seekHolder, hb', h2]⟩

/-- C5 (amended): a TransactionRow (or any other line) occurring before the
first HolderHeader line is silently skipped by the initial header seek — the
parse result is exactly that of the stream starting at the first
HolderHeader, so the row is never decoded, never appended, and never raises
an error.  There is no RowBeforeHolder failure (see `c5_counterexample`). -/
theorem c5_rows_before_header_skipped (pre rest : List (List String)) (cd : CreationDate)
    (hpre : ∀ l ∈ pre, ∃ t0 ts, l = t0 :: ts ∧
      beginsWith "DETALLE DE OPERACIONES".data (lstripChars t0.data) = false) :
    parseLineStream (pre ++ rest) cd = parseLineStream rest cd := by
  unfold parseLineStream
  rw [seekHolder_append_skip rest pre hpre]

/-- C5 counterexample: a TransactionRow precedes any HolderHeader, yet the
parse succeeds (no structural error is raised) and the row appears nowhere in
the result. -/
theorem c5_counterexample :
    parseLineStream [["", "03-02", "PHARMACY XYZ", "150.00", "---"],
        ["DETALLE DE OPERACIONES", "JOHN DOE - 1234"]] ⟨2024, 1⟩ =
      .ok ⟨[⟨"JOHN DOE", "1234", []⟩], ⟨2024, 1⟩⟩ := by decide

/-- C5 witness: the amended skipping rule on a concrete row-then-header
stream. -/
theorem c5_rows_before_header_skipped_witness :
    parseLineStream ([["", "03-02", "PHARMACY XYZ", "150.00", "---"]] ++
        [["DETALLE DE OPERACIONES", "JOHN DOE - 1234"]]) ⟨2024, 1⟩ =
      parseLineStream [["DETALLE DE OPERACIONES", "JOHN DOE - 1234"]] ⟨2024, 1⟩ :=
  c5_rows_before_header_skipped _ _ _ (by
    intro l hl
    rw [List.mem_singleton] at hl
    subst hl
    exact ⟨_, _, rfl, by decide⟩)

/-- C6 (amended): end of input acts exactly like an explicit SectionEnd —
for every line stream, parsing it equals parsing it with a monthly-limit line
appended, so a stream that ends without a SectionEnd returns whatever holders
were accumulated.  However a document with no HolderHeader at all does not
complete: the initial header seek faults with an index error
(see `c6_counterexample`). -/
theorem c6_end_of_input_implicit_close (lines : List (List String)) (cd : CreationDate) :
    parseLineStream (lines ++ [["LIMITE MENSUAL"]]) cd = parseLineStream lines cd := by
  unfold parseLineStream
  rw [seekHolder_append_limit]
  cases hs : seekHolder lines with
  | error e => rfl
  | ok mid => simp [Except.map, assemble_append_limit]

/-- C6 counterexample: a stream with no HolderHeader (still seeking at end of
input, no SectionEnd reached) does not complete without error — the header
seek runs off the end of the line list and faults. -/
theorem c6_counterexample :
    parseLineStream [["hello"]] ⟨2024, 1⟩ = .error .indexError := by decide

/-- C7 (amended): once a SectionEnd line is reached after the first
HolderHeader line, no later line is processed — the results for two streams
agreeing up to and including that SectionEnd are equal, whatever the
trailing lines.  A SectionEnd occurring before the first HolderHeader is
skipped by the header seek and does not stop processing
(see `c7_counterexample`). -/
theorem c7_section_end_stops (pre : List (List String)) (t0 : String) (ts : List String)
    (tail tail' : List (List String)) (cd : CreationDate)
    (hlim : beginsWith "LIMITE MENSUAL".data t0.data = true)
    (hex : ∃ l ∈ pre, ∃ h0 hs, l = h0 :: hs ∧
      beginsWith "DETALLE DE OPERACIONES".data (lstripChars h0.data) = true) :
    parseLineStream (pre ++ (t0 :: ts) :: tail) cd =
      parseLineStream (pre ++ (t0 :: ts) :: tail') cd := by
  unfold parseLineStream
  rcases seekHolder_split pre ((t0 :: ts) :: tail) ((t0 :: ts) :: tail') hex with
    ⟨e, h1, h2⟩ | ⟨mid, h1, h2⟩
  · rw [h1, h2]
  · rw [h1, h2]
    dsimp only
    rw [assemble_stop_at_limit cd t0 ts hlim mid tail tail' []]

/-- C7 counterexample: the streams `[SectionEnd]` and `[SectionEnd, header]`
agree up to and including the SectionEnd line, yet parse to different
results (an index fault vs a Statement), because a SectionEnd before the
first HolderHeader is not honoured; and a malformed row after a
SectionEnd-then-header still raises an error. -/
theorem c7_counterexample :
    parseLineStream [["LIMITE MENSUAL"]] ⟨2024, 1⟩ = .error .indexError ∧
      parseLineStream [["LIMITE MENSUAL"], ["DETALLE DE OPERACIONES", "JOHN DOE - 1234"]]
          ⟨2024, 1⟩ = .ok ⟨[⟨"JOHN DOE", "1234", []⟩], ⟨2024, 1⟩⟩ ∧
      parseLineStream [["LIMITE MENSUAL"], ["DETALLE DE OPERACIONES", "JOHN DOE - 1234"],
          ["", "03-02", "X", "---", "---"]] ⟨2024, 1⟩ =
        .error (.invalidAmount ["", "03-02", "X", "---", "---"]) :=
  ⟨by decide, by decide, by decide⟩

/-- C7 witness: the amended stopping rule on a concrete header-then-limit
stream with differing trailing garbagerows. -/
theorem c7_section_end_stops_witness :
    parseLineStream ([["DETALLE DE OPERACIONES", "JOHN DOE - 1234"]] ++
        ("LIMITE MENSUAL" :: []) :: []) ⟨2024, 1⟩ =
      parseLineStream ([["DETALLE DE OPERACIONES", "JOHN DOE - 1234"]] ++
        ("LIMITE MENSUAL" :: []) :: [["", "03-02", "X", "---", "---"]]) ⟨2024, 1⟩ :=
  c7_section_end_stops _ _ _ _ _ _ (by decide)
    ⟨["DETALLE DE OPERACIONES", "JOHN DOE - 1234"], by decide,
      "DETALLE DE OPERACIONES", ["JOHN DOE - 1234"], rfl, by decide⟩

/-! ### The holder regex never matches across the join separator -/

theorem takeWhile_append_not {p : Char → Bool} {y : Char} (hy : p y = false)
    (xs ys : List Char) : (xs ++ y :: ys).takeWhile p = xs.takeWhile p := by
  induction xs with
  | nil => simp [List.takeWhile_cons, hy]
  | cons x xs ih => by_cases hx : p x <;> simp [List.takeWhile_cons, hx, ih]

theorem dropWhile_append_not {p : Char → Bool} {y : Char} (hy : p y = false)
    (xs ys : List Char) : (xs ++ y :: ys).dropWhile p = xs.dropWhile p ++ y :: ys := by
  induction xs with
  | nil => simp [List.dropWhile_cons, hy]
  | cons x xs ih => by_cases hx : p x <;> simp [List.dropWhile_cons, hx, ih]

theorem takeWord_append_bar (xs ys : List Char) :
    takeWord (xs ++ '|' :: ys) = (takeWord xs).map (fun p => (p.1, p.2 ++ '|' :: ys)) := by
  unfold takeWord
  rw [takeWhile_append_not (by decide), dropWhile_append_not (by decide)]
  by_cases h : xs.takeWhile isWordChar = []
  · rw [if_pos h, if_pos h]; rfl
  · rw [if_neg h, if_neg h]; rfl

theorem expectChar_append_bar {c : Char} (hc : c ≠ '|') (xs ys : List Char) :
    expectChar c (xs ++ '|' :: ys) = (expectChar c xs).map (fun s => s ++ '|' :: ys) := by
  cases xs with
  | nil => simp [expectChar, Ne.symm hc]
  | cons x xs => by_cases hx : x = c <;> simp [expectChar, hx]

theorem expectDigit_append_bar (xs ys : List Char) :
    expectDigit (xs ++ '|' :: ys) = (expectDigit xs).map (fun p => (p.1, p.2 ++ '|' :: ys)) := by
  cases xs with
  | nil => rfl
  | cons x xs => by_cases hx : x.isDigit <;> simp [expectDigit, hx]

theorem matchAt_append_bar (xs ys : List Char) : matchAt (xs ++ '|' :: ys) = matchAt xs := by
  unfold matchAt
  rw [takeWord_append_bar]
  cases h1 : takeWord xs with
  | none => rfl
  | some p1 =>
    obtain ⟨r1, s1⟩ := p1
    simp only [Option.map_some']
    rw [expectChar_append_bar (by decide)]
    cases h2 : expectChar ' ' s1 with
    | none => rfl
    | some s2 =>
      simp only [Option.map_some']
      rw [takeWord_append_bar]
      cases h3 : takeWord s2 with
      | none => rfl
      | some p3 =>
        obtain ⟨r2, s3⟩ := p3
        simp only [Option.map_some']
        rw [expectChar_append_bar (by decide)]
        cases h4 : expectChar ' ' s3 with
        | none => rfl
        | some s4 =>
          simp only [Option.map_some']
          rw [expectChar_append_bar (by decide)]
          cases h5 : expectChar '-' s4 with
          | none => rfl
          | some s5 =>
            simp only [Option.map_some']
            rw [expectChar_append_bar (by decide)]
            cases h6 : expectChar ' ' s5 with
            | none => rfl
            | some s6 =>
              simp only [Option.map_some']
              rw [expectDigit_append_bar]
              cases h7 : expectDigit s6 with
              | none => rfl
              | some p7 =>
                obtain ⟨d1, s7⟩ := p7
                simp only [Option.map_some']
                rw [expectDigit_append_bar]
                cases h8 : expectDigit s7 with
                | none => rfl
                | some p8 =>
                  obtain ⟨d2, s8⟩ := p8
                  simp only [Option.map_some']
                  rw [expectDigit_append_bar]
                  cases h9 : expectDigit s8 with
                  | none => rfl
                  | some p9 =>
                    obtain ⟨d3, s9⟩ := p9
                    simp only [Option.map_some']
                    rw [expectDigit_append_bar]
                    cases h10 : expectDigit s9 with
                    | none => rfl
                    | some p10 => rfl

theorem matchAt_bar_head (ys : List Char) : matchAt ('|' :: ys) = none := rfl

theorem reSearch_append_bar {xs ys : List Char}
    (hx : reSearch xs = none) (hy : reSearch ys = none) :
    reSearch (xs ++ '|' :: ys) = none := by
  induction xs with
  | nil => simp [reSearch, matchAt_bar_head, hy]
  | cons c cs ih =>
    have hm : matchAt (c :: cs) = none := by
      unfold reSearch at hx
      cases h : matchAt (c :: cs)
      · rfl
      · rw [h] at hx; exact absurd hx (by simp)
    have hrest : reSearch cs = none := by
      unfold reSearch at hx
      rw [hm] at hx
      exact hx
    show reSearch ((c :: cs) ++ '|' :: ys) = none
    rw [List.cons_append, reSearch,
      show c :: (cs ++ '|' :: ys) = (c :: cs) ++ '|' :: ys from rfl,
      matchAt_append_bar, hm]
    exact ih hrest

theorem reSearch_joinBar_none :
    ∀ l : List String, (∀ s ∈ l, reSearch s.data = none) → reSearch (joinBar l) = none := by
  intro l
  induction l with
  | nil => intro _; rfl
  | cons s rest ih =>
    intro h
    cases rest with
    | nil => exact h s (List.mem_cons_self _ _)
    | cons t ts =>
      show reSearch (s.data ++ '|' :: joinBar (t :: ts)) = none
      exact reSearch_append_bar (h s (List.mem_cons_self _ _))
        (ih (fun y hy => h y (List.mem_cons_of_mem _ hy)))

/-- C8 (amended): the holder name and card-last-4 are recovered by searching
the pattern in the `"|"`-join of all the line's tokens — since no match can
contain the join separator, a match in any single token (not only token 1)
supplies them, and when no token contains the pattern the decode fails with
an error carrying the offending line.  (That a match outside token 1 is
accepted is shown by `c8_counterexample`.) -/
theorem c8_holder_pattern_search (l : List String)
    (hnone : ∀ s ∈ l, reSearch s.data = none) :
    parseHolder l = .error (.invalidHolder l) := by
  unfold parseHolder
  rw [reSearch_joinBar_none l hnone]

/-- C8 counterexample: token 1 (`"???"`) does not match the name/card
pattern, yet the holder decodes successfully, taking the match from token 2 —
refuting “recovered from token 1 (and only token 1), error otherwise”. -/
theorem c8_counterexample :
    reSearch ("???" : String).data = none ∧
      parseLineStream [["DETALLE DE OPERACIONES", "???", "JOHN DOE - 1234"]] ⟨2024, 1⟩ =
        .ok ⟨[⟨"JOHN DOE", "1234", []⟩], ⟨2024, 1⟩⟩ :=
  ⟨by decide, by decide⟩

/-- C8 witness: the amended no-match rule on a concrete digitless header
line. -/
theorem c8_holder_pattern_search_witness :
    (∀ s ∈ (["DETALLE DE OPERACIONES", "no card digits"] : List String),
        reSearch s.data = none) ∧
      parseHolder ["DETALLE DE OPERACIONES", "no card digits"] =
        .error (.invalidHolder ["DETALLE DE OPERACIONES", "no card digits"]) :=
  ⟨by decide, c8_holder_pattern_search _ (by decide)⟩
